import Mathlib

/-!
Shallow embedding of the `variable_connection_plugin` operator
(`operator/variable_connection_operator.py`, class `CreateConnectionsFromVariable`).

Python runtime values that can occur in the JSON-deserialized configuration
variable are modelled by `PyVal`; a configuration entry (a Python dict) is
modelled by `ConfigEntry`, whose `Option` fields distinguish an absent key
(`Option.none`) from a key present with value `null` (`Option.some PyVal.none`),
matching `dict.get(key, default)` semantics.

The external collaborators (the Airflow connection store queried by
`BaseHook.get_connection`, the `Variable.get` store, the Fernet decryption
primitive, and the success of a registry `session.commit()`) are modelled as
an environment `Env`.  Exceptions raised by the Python code are modelled by
`SyncError`; `execute` returns the final registry state together with
`Option.some` of the first uncaught error, or `Option.none` on a completed run.
-/

namespace VariableConnection

/-- A Python runtime value, as far as the operator inspects one. -/
inductive PyVal where
  | none : PyVal
  | bool : Bool → PyVal
  | int : Int → PyVal
  | str : String → PyVal
deriving DecidableEq

/-- Python `str(v)` / `'{0}'.format(v)` for the modelled values. -/
def pyStr : PyVal → String
  | PyVal.none => "None"
  | PyVal.bool true => "True"
  | PyVal.bool false => "False"
  | PyVal.int n => toString n
  | PyVal.str s => s

/-- One entry of the configuration mapping.  Each field is `Option.none`
when the corresponding dict key is absent (so `dict.get` falls back to the
default used at the call site in `execute`). -/
structure ConfigEntry where
  is_enabled : Option PyVal
  organization : Option PyVal
  type : Option PyVal
  token : Option PyVal
  instance_url : Option PyVal
deriving DecidableEq

/-- An Airflow `Connection` record, restricted to the fields the operator sets. -/
structure Connection where
  conn_id : String
  conn_type : String
  host : String
  password : String
  extra : String
deriving DecidableEq

/-- The connection returned by `BaseHook.get_connection` for the Fernet-key
conn id; only its `password` field is used, and it may be `null`. -/
structure SecretConn where
  password : Option String
deriving DecidableEq

/-- Uncaught Python exceptions the run can abort with: `keyResolution` for
`BaseHook.get_connection` failing on a missing conn id, `decryption` for a
`Fernet` construction/decrypt failure, `persistence` for a failed registry
commit inside `merge_connection`. -/
inductive SyncError where
  | keyResolution : SyncError
  | decryption : SyncError
  | persistence : SyncError
deriving DecidableEq

/-- The external world: the connection store, the variable store, the Fernet
primitive, and which registry commits succeed. -/
structure Env where
  get_connection : Option String → Option SecretConn
  variableGet : String → Option (List (String × ConfigEntry))
  decrypt : String → String → Option String
  commitOk : Connection → Bool

/-- The operator's persistent attributes.  The constructor stores only the
Fernet-key conn id and the config variable key (see `ofArgs`). -/
structure CreateConnectionsFromVariable where
  fernet_key_conn_id : Option String
  config_variable_key : String
deriving DecidableEq

/-- `__init__(config_variable_key, fernet_key_conn_id=None, is_encrypted=True)`:
the `is_encrypted` argument is accepted but never stored. -/
def CreateConnectionsFromVariable.ofArgs (config_variable_key : String)
    (fernet_key_conn_id : Option String) (is_encrypted : Bool) :
    CreateConnectionsFromVariable :=
  { fernet_key_conn_id := fernet_key_conn_id
    config_variable_key := config_variable_key }

/-- `decrypt_str(fernet_key, encrypted_str)`: `Fernet(fernet_key)` raises when
the key is `None`, otherwise the black-box primitive decides success. -/
def decrypt_str (env : Env) (fernet_key : Option String)
    (encrypted_str : String) : Option String :=
  match fernet_key with
  | Option.none => Option.none
  | Option.some k => env.decrypt k encrypted_str

/-- `merge_connection(connection)`: inside one session, delete every record
whose `conn_id` matches, add the new record, and commit.  A failed commit
rolls the session back (registry unchanged) and the exception propagates. -/
def merge_connection (commitOk : Connection → Bool) (reg : List Connection)
    (connection : Connection) : Except SyncError (List Connection) :=
  if commitOk connection then
    Except.ok (reg.filter (fun r => r.conn_id ≠ connection.conn_id) ++ [connection])
  else
    Except.error SyncError.persistence

/-- The tuple `_enabled_types` checked in `execute`. -/
def enabledTypes : List PyVal :=
  [PyVal.str "GOOGLE_ANALYTICS", PyVal.str "HUBSPOT", PyVal.str "SALESFORCE"]

/-- What the loop body decides for one entry, before the registry is touched:
`skip` for a `continue`, `fail` for an uncaught decryption exception, and
`upsert c` when all checks pass and the record `c` is handed to
`merge_connection`.  (The checks, the decryption and the record construction
never consult the registry, so this factors out of the loop body exactly.) -/
inductive EntryOutcome where
  | skip : EntryOutcome
  | fail : EntryOutcome
  | upsert : Connection → EntryOutcome
deriving DecidableEq

/-- The registry-independent part of the `for config_key in dag_config_var`
loop body: field extraction via `dict.get`, the `is False` enabled check, the
type/`isinstance` checks, decryption, prefix and url resolution, and the
`Connection(...)` construction. -/
def entryOutcome (env : Env) (fernet_key : Option String)
    (org_config : ConfigEntry) : EntryOutcome :=
  let _is_enabled := org_config.is_enabled.getD (PyVal.bool false)
  let _organization_name := org_config.organization.getD PyVal.none
  let _type := org_config.type.getD PyVal.none
  let _token := org_config.token.getD PyVal.none
  let _instance_url := org_config.instance_url.getD PyVal.none
  if _is_enabled = PyVal.bool false then
    EntryOutcome.skip
  else if _type ∉ enabledTypes then
    EntryOutcome.skip
  else
    match _token, _instance_url with
    | PyVal.str tokStr, PyVal.str urlStr =>
      match decrypt_str env fernet_key tokStr with
      | Option.none => EntryOutcome.fail
      | Option.some access_token =>
        let pfxUrl : String × String :=
          if _type = PyVal.str "SALESFORCE" then ("sf", urlStr)
          else if _type = PyVal.str "HUBSPOT" then ("hs", "https://api.hubapi.com/")
          else if _type = PyVal.str "GOOGLE_ANALYTICS" then ("ga", urlStr)
          else ("", urlStr)
        EntryOutcome.upsert
          { conn_id := pfxUrl.1 ++ "_" ++ pyStr _organization_name
            conn_type := "http"
            host := pfxUrl.2
            password := access_token
            extra := "\x7b\"auth_type\": \"direct\"\x7d" }
    | _, _ => EntryOutcome.skip

/-- The full loop body for one entry: compute the outcome, then apply it to
the registry.  `Except.ok` returns the registry after the entry (unchanged on
a skip); `Except.error` is an uncaught exception. -/
def processEntry (env : Env) (fernet_key : Option String)
    (reg : List Connection) (org_config : ConfigEntry) :
    Except SyncError (List Connection) :=
  match entryOutcome env fernet_key org_config with
  | EntryOutcome.skip => Except.ok reg
  | EntryOutcome.fail => Except.error SyncError.decryption
  | EntryOutcome.upsert organization_connection =>
    merge_connection env.commitOk reg organization_connection

/-- Runs the loop over the remaining entries; stops at the first uncaught
exception, returning the registry as committed up to that point. -/
def runEntries (env : Env) (fernet_key : Option String) :
    List ConfigEntry → List Connection → List Connection × Option SyncError
  | [], reg => (reg, Option.none)
  | org_config :: rest, reg =>
    match processEntry env fernet_key reg org_config with
    | Except.error e => (reg, Option.some e)
    | Except.ok reg2 => runEntries env fernet_key rest reg2

/-- `execute(context)`: fetch the Fernet-key connection, fetch the config
variable (absent variable ↦ empty mapping), then iterate over the entries. -/
def execute (env : Env) (op : CreateConnectionsFromVariable)
    (reg : List Connection) : List Connection × Option SyncError :=
  match env.get_connection op.fernet_key_conn_id with
  | Option.none => (reg, Option.some SyncError.keyResolution)
  | Option.some secret_key_conn =>
    let dag_config_var := (env.variableGet op.config_variable_key).getD []
    runEntries env secret_key_conn.password (dag_config_var.map Prod.snd) reg

/-! ### Concrete fixtures (used by witnesses and counterexamples) -/

/-- The spec scenario's `acme` SALESFORCE entry, with ciphertext `"ct"`. -/
def acmeEntry : ConfigEntry :=
  { is_enabled := Option.some (PyVal.bool true)
    organization := Option.some (PyVal.str "acme")
    type := Option.some (PyVal.str "SALESFORCE")
    token := Option.some (PyVal.str "ct")
    instance_url := Option.some (PyVal.str "https://acme.my.salesforce.com") }

/-- The same entry as a HUBSPOT one. -/
def hubspotEntry : ConfigEntry :=
  { acmeEntry with type := Option.some (PyVal.str "HUBSPOT") }

/-- The `acme` entry with a truthy, non-boolean `is_enabled` value. -/
def truthyEntry : ConfigEntry :=
  { acmeEntry with is_enabled := Option.some (PyVal.int 1) }

/-- The `acme` entry with a token that does not decrypt under key `"K"`. -/
def badTokenEntry : ConfigEntry :=
  { acmeEntry with token := Option.some (PyVal.str "bad") }

/-- The record `execute` builds for `acmeEntry`. -/
def acmeConn : Connection :=
  { conn_id := "sf_acme"
    conn_type := "http"
    host := "https://acme.my.salesforce.com"
    password := "tok123"
    extra := "\x7b\"auth_type\": \"direct\"\x7d" }

/-- The record `execute` builds for `hubspotEntry`. -/
def hubspotConn : Connection :=
  { conn_id := "hs_acme"
    conn_type := "http"
    host := "https://api.hubapi.com/"
    password := "tok123"
    extra := "\x7b\"auth_type\": \"direct\"\x7d" }

/-- An environment where conn id `"fk"` holds the key `"K"`, the variable
`"cfg"` holds the given entries, `"ct"` decrypts to `"tok123"` under `"K"`
(everything else fails to decrypt), and every commit succeeds. -/
def mkEnv (entries : List (String × ConfigEntry)) : Env :=
  { get_connection := fun i =>
      if i = Option.some "fk" then Option.some { password := Option.some "K" }
      else Option.none
    variableGet := fun k => if k = "cfg" then Option.some entries else Option.none
    decrypt := fun k c =>
      if k = "K" ∧ c = "ct" then Option.some "tok123" else Option.none
    commitOk := fun _ => true }

/-- The operator configured against the fixtures. -/
def opFix : CreateConnectionsFromVariable :=
  { fernet_key_conn_id := Option.some "fk", config_variable_key := "cfg" }

/-- A two-entry environment whose registry refuses to commit `"sf_acme"`. -/
def envNoCommit : Env :=
  { mkEnv [("a", acmeEntry), ("b", hubspotEntry)] with
      commitOk := fun c => c.conn_id ≠ "sf_acme" }

/-- An environment whose Fernet-key connection exists but has a null password. -/
def envNoPassword : Env :=
  { mkEnv [] with
      get_connection := fun i =>
        if i = Option.some "fk" then Option.some { password := Option.none }
        else Option.none }

/-! ### Lemmas about the registry operations -/

theorem merge_connection_ok_iff {commitOk : Connection → Bool}
    {reg reg' : List Connection} {c : Connection} :
    merge_connection commitOk reg c = Except.ok reg' ↔
      commitOk c = true ∧
        reg' = reg.filter (fun r => r.conn_id ≠ c.conn_id) ++ [c] := by
  unfold merge_connection
  by_cases h : commitOk c = true
  · simp [h, eq_comm]
  · simp [h]

theorem merge_connection_nodup {commitOk : Connection → Bool}
    {reg reg' : List Connection} {c : Connection}
    (hnd : (reg.map Connection.conn_id).Nodup)
    (h : merge_connection commitOk reg c = Except.ok reg') :
    (reg'.map Connection.conn_id).Nodup := by
  rcases merge_connection_ok_iff.mp h with ⟨hc, rfl⟩
  rw [List.map_append, List.nodup_append]
  refine ⟨((List.filter_sublist reg).map Connection.conn_id).nodup hnd, by simp, ?_⟩
  intro y hy hy2
  simp only [List.map_cons, List.map_nil, List.mem_singleton] at hy2
  subst hy2
  rcases List.mem_map.mp hy with ⟨r, hr, hrid⟩
  rcases List.mem_filter.mp hr with ⟨_, hpr⟩
  simp only [ne_eq, decide_eq_true_eq] at hpr
  exact hpr hrid

theorem merge_connection_mem_id {commitOk : Connection → Bool}
    {reg reg' : List Connection} {c : Connection} {x : String}
    (h : merge_connection commitOk reg c = Except.ok reg')
    (hx : x ∈ reg.map Connection.conn_id) : x ∈ reg'.map Connection.conn_id := by
  rcases merge_connection_ok_iff.mp h with ⟨hc, rfl⟩
  rcases List.mem_map.mp hx with ⟨r, hr, rfl⟩
  by_cases hid : r.conn_id = c.conn_id
  · simp [hid]
  · exact List.mem_map_of_mem _
      (List.mem_append_left _ (List.mem_filter.mpr ⟨hr, by simp [hid]⟩))

theorem merge_connection_new_mem {commitOk : Connection → Bool}
    {reg reg' : List Connection} {c : Connection}
    (h : merge_connection commitOk reg c = Except.ok reg') :
    c.conn_id ∈ reg'.map Connection.conn_id := by
  rcases merge_connection_ok_iff.mp h with ⟨hc, rfl⟩
  simp

theorem processEntry_nodup {env : Env} {fernet_key : Option String}
    {reg reg' : List Connection} {e : ConfigEntry}
    (hnd : (reg.map Connection.conn_id).Nodup)
    (h : processEntry env fernet_key reg e = Except.ok reg') :
    (reg'.map Connection.conn_id).Nodup := by
  unfold processEntry at h
  cases houtcome : entryOutcome env fernet_key e <;> rw [houtcome] at h
  · cases h; exact hnd
  · simp at h
  · exact merge_connection_nodup hnd h

theorem processEntry_mem_id {env : Env} {fernet_key : Option String}
    {reg reg' : List Connection} {e : ConfigEntry} {x : String}
    (h : processEntry env fernet_key reg e = Except.ok reg')
    (hx : x ∈ reg.map Connection.conn_id) : x ∈ reg'.map Connection.conn_id := by
  unfold processEntry at h
  cases houtcome : entryOutcome env fernet_key e <;> rw [houtcome] at h
  · cases h; exact hx
  · simp at h
  · exact merge_connection_mem_id h hx

theorem runEntries_cons_ok {env : Env} {fernet_key : Option String}
    {e : ConfigEntry} {rest : List ConfigEntry} {reg reg1 : List Connection}
    (h : processEntry env fernet_key reg e = Except.ok reg1) :
    runEntries env fernet_key (e :: rest) reg =
      runEntries env fernet_key rest reg1 := by
  simp [runEntries, h]

theorem runEntries_cons_err {env : Env} {fernet_key : Option String}
    {e : ConfigEntry} {rest : List ConfigEntry} {reg : List Connection}
    {err : SyncError}
    (h : processEntry env fernet_key reg e = Except.error err) :
    runEntries env fernet_key (e :: rest) reg = (reg, Option.some err) := by
  simp [runEntries, h]

theorem runEntries_append {env : Env} {fernet_key : Option String}
    (es1 es2 : List ConfigEntry) (reg : List Connection)
    (h : (runEntries env fernet_key es1 reg).2 = Option.none) :
    runEntries env fernet_key (es1 ++ es2) reg =
      runEntries env fernet_key es2 (runEntries env fernet_key es1 reg).1 := by
  induction es1 generalizing reg with
  | nil => simp [runEntries]
  | cons e rest ih =>
    cases hp : processEntry env fernet_key reg e with
    | error err => rw [runEntries_cons_err hp] at h; simp at h
    | ok reg1 =>
      rw [runEntries_cons_ok hp] at h ⊢
      rw [List.cons_append, runEntries_cons_ok hp]
      exact ih reg1 h

theorem runEntries_nodup {env : Env} {fernet_key : Option String}
    (es : List ConfigEntry) {reg : List Connection}
    (hnd : (reg.map Connection.conn_id).Nodup) :
    (((runEntries env fernet_key es reg).1).map Connection.conn_id).Nodup := by
  induction es generalizing reg with
  | nil => simpa [runEntries] using hnd
  | cons e rest ih =>
    cases hp : processEntry env fernet_key reg e with
    | error err => rw [runEntries_cons_err hp]; exact hnd
    | ok reg1 => rw [runEntries_cons_ok hp]; exact ih (processEntry_nodup hnd hp)

theorem runEntries_mem_id {env : Env} {fernet_key : Option String}
    (es : List ConfigEntry) {reg : List Connection} {x : String}
    (hx : x ∈ reg.map Connection.conn_id) :
    x ∈ ((runEntries env fernet_key es reg).1).map Connection.conn_id := by
  induction es generalizing reg with
  | nil => simpa [runEntries] using hx
  | cons e rest ih =>
    cases hp : processEntry env fernet_key reg e with
    | error err => rw [runEntries_cons_err hp]; exact hx
    | ok reg1 => rw [runEntries_cons_ok hp]; exact ih (processEntry_mem_id hp hx)

theorem runEntries_upsert_mem {env : Env} {fernet_key : Option String}
    {es : List ConfigEntry} {reg : List Connection} {e : ConfigEntry}
    {c : Connection}
    (hdone : (runEntries env fernet_key es reg).2 = Option.none)
    (hmem : e ∈ es)
    (houtcome : entryOutcome env fernet_key e = EntryOutcome.upsert c) :
    c.conn_id ∈ ((runEntries env fernet_key es reg).1).map Connection.conn_id := by
  induction es generalizing reg with
  | nil => simp at hmem
  | cons hd rest ih =>
    cases hp : processEntry env fernet_key reg hd with
    | error err => rw [runEntries_cons_err hp] at hdone; simp at hdone
    | ok reg1 =>
      rw [runEntries_cons_ok hp] at hdone ⊢
      rcases List.mem_cons.mp hmem with rfl | hrest
      · have hmerge : merge_connection env.commitOk reg c = Except.ok reg1 := by
          unfold processEntry at hp
          rw [houtcome] at hp
          exact hp
        exact runEntries_mem_id rest (merge_connection_new_mem hmerge)
      · exact ih hdone hrest

theorem execute_conn_some {env : Env} {op : CreateConnectionsFromVariable}
    {sc : SecretConn} (reg : List Connection)
    (h : env.get_connection op.fernet_key_conn_id = Option.some sc) :
    execute env op reg =
      runEntries env sc.password
        (((env.variableGet op.config_variable_key).getD []).map Prod.snd) reg := by
  simp [execute, h]

theorem execute_conn_none {env : Env} {op : CreateConnectionsFromVariable}
    (reg : List Connection)
    (h : env.get_connection op.fernet_key_conn_id = Option.none) :
    execute env op reg = (reg, Option.some SyncError.keyResolution) := by
  simp [execute, h]

theorem execute_nodup {env : Env} {op : CreateConnectionsFromVariable}
    {reg : List Connection} (hnd : (reg.map Connection.conn_id).Nodup) :
    (((execute env op reg).1).map Connection.conn_id).Nodup := by
  cases hconn : env.get_connection op.fernet_key_conn_id with
  | none => rw [execute_conn_none reg hconn]; exact hnd
  | some sc => rw [execute_conn_some reg hconn]; exact runEntries_nodup _ hnd

/-! ### Claims -/

/-- C2 counterexample: an entry whose `is_enabled` is the truthy non-boolean
`1` is NOT skipped — `execute` creates a record for it, because the code only
checks `_is_enabled is False`. -/
theorem truthy_is_enabled_creates_record :
    execute (mkEnv [("acme", truthyEntry)]) opFix [] =
      ([acmeConn], Option.none) ∧
    (execute (mkEnv [("acme", truthyEntry)]) opFix []).1 ≠ [] := by
  constructor <;> decide

/-- C2 (amended): an entry is skipped with no side effect when its
`is_enabled` value, defaulting to boolean false when the key is absent, is
exactly the boolean false; any other value proceeds to the remaining checks. -/
theorem is_enabled_false_skips (env : Env) (fernet_key : Option String)
    (reg : List Connection) (e : ConfigEntry)
    (h : e.is_enabled.getD (PyVal.bool false) = PyVal.bool false) :
    processEntry env fernet_key reg e = Except.ok reg := by
  simp [processEntry, entryOutcome, h]

/-- Witness for `is_enabled_false_skips` at a concrete disabled entry. -/
theorem is_enabled_false_skips_witness :
    ({ acmeEntry with is_enabled := Option.some (PyVal.bool false)
        : ConfigEntry }).is_enabled.getD (PyVal.bool false) = PyVal.bool false ∧
    processEntry (mkEnv []) (Option.some "K") []
        { acmeEntry with is_enabled := Option.some (PyVal.bool false) } =
      Except.ok [] :=
  ⟨by decide,
    is_enabled_false_skips (mkEnv []) (Option.some "K") []
      { acmeEntry with is_enabled := Option.some (PyVal.bool false) } (by decide)⟩

/-- C3: an entry that reaches the field checks but has an unsupported `type`,
a non-string `token`, or a non-string `instance_url` is silently skipped: the
registry is unchanged and no error is raised; since the environment (and with
it the decryption primitive) is universally quantified, no decryption outcome
can influence the result. -/
theorem invalid_fields_skip (env : Env) (fernet_key : Option String)
    (reg : List Connection) (e : ConfigEntry)
    (hen : e.is_enabled.getD (PyVal.bool false) ≠ PyVal.bool false)
    (h : e.type.getD PyVal.none ∉ enabledTypes ∨
        (∀ s, e.token.getD PyVal.none ≠ PyVal.str s) ∨
        (∀ s, e.instance_url.getD PyVal.none ≠ PyVal.str s)) :
    processEntry env fernet_key reg e = Except.ok reg := by
  simp only [processEntry, entryOutcome]
  rw [if_neg hen]
  rcases h with hty | htok | hurl
  · rw [if_pos hty]
  · by_cases hty2 : e.type.getD PyVal.none ∈ enabledTypes
    · rw [if_neg (by simpa using hty2)]
      cases ht : e.token.getD PyVal.none with
      | str s => exact absurd ht (htok s)
      | none => cases e.instance_url.getD PyVal.none <;> rfl
      | bool b => cases e.instance_url.getD PyVal.none <;> rfl
      | int n => cases e.instance_url.getD PyVal.none <;> rfl
    · rw [if_pos hty2]
  · by_cases hty2 : e.type.getD PyVal.none ∈ enabledTypes
    · rw [if_neg (by simpa using hty2)]
      cases hu : e.instance_url.getD PyVal.none with
      | str s => exact absurd hu (hurl s)
      | none => cases e.token.getD PyVal.none <;> rfl
      | bool b => cases e.token.getD PyVal.none <;> rfl
      | int n => cases e.token.getD PyVal.none <;> rfl
    · rw [if_pos hty2]

/-- Witness for `invalid_fields_skip`: an enabled entry with a numeric token
is skipped (the spec's "token is a number" scenario). -/
theorem invalid_fields_skip_witness :
    ({ acmeEntry with token := Option.some (PyVal.int 42)
        : ConfigEntry }).is_enabled.getD (PyVal.bool false) ≠ PyVal.bool false ∧
    processEntry (mkEnv []) (Option.some "K") []
        { acmeEntry with token := Option.some (PyVal.int 42) } =
      Except.ok [] :=
  ⟨by decide,
    invalid_fields_skip (mkEnv []) (Option.some "K") []
      { acmeEntry with token := Option.some (PyVal.int 42) } (by decide)
      (Or.inr (Or.inl (by simp [acmeEntry])))⟩

/-- C4: for an accepted HUBSPOT entry, the built record's host is the fixed
endpoint and its conn id carries the `hs` prefix, with the supplied
`instance_url` string `u` appearing nowhere in the result. -/
theorem hubspot_host_override (env : Env) (fernet_key : Option String)
    (reg : List Connection) (e : ConfigEntry) (t u pt : String)
    (hen : e.is_enabled.getD (PyVal.bool false) ≠ PyVal.bool false)
    (hty : e.type.getD PyVal.none = PyVal.str "HUBSPOT")
    (htok : e.token.getD PyVal.none = PyVal.str t)
    (hurl : e.instance_url.getD PyVal.none = PyVal.str u)
    (hdec : decrypt_str env fernet_key t = Option.some pt) :
    processEntry env fernet_key reg e =
      merge_connection env.commitOk reg
        { conn_id := "hs_" ++ pyStr (e.organization.getD PyVal.none)
          conn_type := "http"
          host := "https://api.hubapi.com/"
          password := pt
          extra := "\x7b\"auth_type\": \"direct\"\x7d" } := by
  simp [processEntry, entryOutcome, hen, hty, htok, hurl, hdec, enabledTypes]

/-- Witness for `hubspot_host_override`: the spec's HUBSPOT scenario with the
ignored `instance_url` value. -/
theorem hubspot_host_override_witness :
    processEntry (mkEnv []) (Option.some "K") []
        { hubspotEntry with
            instance_url := Option.some (PyVal.str "https://ignored.example") } =
      Except.ok [hubspotConn] := by
  have h := hubspot_host_override (mkEnv []) (Option.some "K") []
    { hubspotEntry with
        instance_url := Option.some (PyVal.str "https://ignored.example") }
    "ct" "https://ignored.example" "tok123"
    (by decide) (by decide) (by decide) (by decide) (by decide)
  rw [h]
  rfl

/-- C5: for every accepted entry the built record has
`conn_id = "{prefix}_{organization}"` with prefix `sf`/`hs`/`ga` by type,
`conn_type = "http"`, host equal to the (possibly overridden) instance url,
password equal to the decrypted token, and the fixed `extra` blob. -/
theorem accepted_entry_record_fields (env : Env) (fernet_key : Option String)
    (reg : List Connection) (e : ConfigEntry) (ty t u pt : String)
    (hen : e.is_enabled.getD (PyVal.bool false) ≠ PyVal.bool false)
    (hty : e.type.getD PyVal.none = PyVal.str ty)
    (hty3 : ty = "SALESFORCE" ∨ ty = "HUBSPOT" ∨ ty = "GOOGLE_ANALYTICS")
    (htok : e.token.getD PyVal.none = PyVal.str t)
    (hurl : e.instance_url.getD PyVal.none = PyVal.str u)
    (hdec : decrypt_str env fernet_key t = Option.some pt) :
    processEntry env fernet_key reg e =
      merge_connection env.commitOk reg
        { conn_id :=
            (if ty = "SALESFORCE" then "sf"
             else if ty = "HUBSPOT" then "hs" else "ga") ++ "_" ++
              pyStr (e.organization.getD PyVal.none)
          conn_type := "http"
          host := if ty = "HUBSPOT" then "https://api.hubapi.com/" else u
          password := pt
          extra := "\x7b\"auth_type\": \"direct\"\x7d" } := by
  rcases hty3 with rfl | rfl | rfl <;>
    simp [processEntry, entryOutcome, hen, hty, htok, hurl, hdec, enabledTypes]

/-- Witness for `accepted_entry_record_fields`: the spec's SALESFORCE `acme`
scenario yields `conn_id = "sf_acme"`, the supplied host, and password
`"tok123"`. -/
theorem accepted_entry_record_fields_witness :
    processEntry (mkEnv []) (Option.some "K") [] acmeEntry =
      Except.ok [acmeConn] := by
  have h := accepted_entry_record_fields (mkEnv []) (Option.some "K") []
    acmeEntry "SALESFORCE" "ct" "https://acme.my.salesforce.com" "tok123"
    (by decide) (by decide) (Or.inl rfl) (by decide) (by decide) (by decide)
  rw [h]
  rfl

/-- C10: the `organization` field is never validated — an otherwise accepted
SALESFORCE entry whose `organization` key is absent yields a record whose
conn id embeds the formatted Python `None`, i.e. `"sf_None"`, with all other
fields built normally. -/
theorem missing_organization_gives_sf_none (env : Env)
    (fernet_key : Option String) (reg : List Connection) (e : ConfigEntry)
    (t u pt : String)
    (horg : e.organization = Option.none)
    (hen : e.is_enabled.getD (PyVal.bool false) ≠ PyVal.bool false)
    (hty : e.type.getD PyVal.none = PyVal.str "SALESFORCE")
    (htok : e.token.getD PyVal.none = PyVal.str t)
    (hurl : e.instance_url.getD PyVal.none = PyVal.str u)
    (hdec : decrypt_str env fernet_key t = Option.some pt) :
    processEntry env fernet_key reg e =
      merge_connection env.commitOk reg
        { conn_id := "sf_None"
          conn_type := "http"
          host := u
          password := pt
          extra := "\x7b\"auth_type\": \"direct\"\x7d" } := by
  simp [processEntry, entryOutcome, horg, hen, hty, htok, hurl, hdec,
    enabledTypes, pyStr]

/-- Witness for `missing_organization_gives_sf_none` at a concrete entry. -/
theorem missing_organization_gives_sf_none_witness :
    processEntry (mkEnv []) (Option.some "K") []
        { acmeEntry with organization := Option.none } =
      Except.ok [{ acmeConn with conn_id := "sf_None" }] := by
  have h := missing_organization_gives_sf_none (mkEnv []) (Option.some "K") []
    { acmeEntry with organization := Option.none }
    "ct" "https://acme.my.salesforce.com" "tok123"
    rfl (by decide) (by decide) (by decide) (by decide) (by decide)
  rw [h]
  rfl

/-- C9: the `is_encrypted` constructor argument is dropped — two operators
built with the two flag values are the same object, so every run (registry
outcome and error alike) is identical, and every accepted entry's token goes
through `decrypt_str` regardless of the flag. -/
theorem is_encrypted_flag_has_no_effect (env : Env) (reg : List Connection)
    (config_variable_key : String) (fernet_key_conn_id : Option String)
    (b1 b2 : Bool) :
    CreateConnectionsFromVariable.ofArgs config_variable_key
        fernet_key_conn_id b1 =
      CreateConnectionsFromVariable.ofArgs config_variable_key
        fernet_key_conn_id b2 ∧
    execute env (CreateConnectionsFromVariable.ofArgs config_variable_key
        fernet_key_conn_id b1) reg =
      execute env (CreateConnectionsFromVariable.ofArgs config_variable_key
        fernet_key_conn_id b2) reg :=
  ⟨rfl, rfl⟩

/-- C6: a failed decryption aborts the whole run: the error propagates, the
failing entry leaves no record, nothing after it in the iteration affects the
result (`post` is universally quantified), and the entries committed before
the failure (`regPre`) remain. -/
theorem decryption_failure_aborts_run (env : Env)
    (op : CreateConnectionsFromVariable) (reg regPre : List Connection)
    (sc : SecretConn) (pre post : List ConfigEntry) (e : ConfigEntry)
    (t u : String)
    (hconn : env.get_connection op.fernet_key_conn_id = Option.some sc)
    (hvar : ((env.variableGet op.config_variable_key).getD []).map Prod.snd =
      pre ++ e :: post)
    (hpre : runEntries env sc.password pre reg = (regPre, Option.none))
    (hen : e.is_enabled.getD (PyVal.bool false) ≠ PyVal.bool false)
    (htymem : e.type.getD PyVal.none ∈ enabledTypes)
    (htok : e.token.getD PyVal.none = PyVal.str t)
    (hurl : e.instance_url.getD PyVal.none = PyVal.str u)
    (hdec : decrypt_str env sc.password t = Option.none) :
    execute env op reg = (regPre, Option.some SyncError.decryption) := by
  have hfail : entryOutcome env sc.password e = EntryOutcome.fail := by
    simp [entryOutcome, hen, htymem, htok, hurl, hdec]
  have hperr : processEntry env sc.password regPre e =
      Except.error SyncError.decryption := by
    simp [processEntry, hfail]
  rw [execute_conn_some reg hconn, hvar,
    runEntries_append pre (e :: post) reg (by rw [hpre]),
    hpre, runEntries_cons_err hperr]

/-- Witness for `decryption_failure_aborts_run`: the first entry is committed,
the second fails to decrypt, the third is never processed. -/
theorem decryption_failure_aborts_run_witness :
    execute (mkEnv [("a", acmeEntry), ("b", badTokenEntry), ("c", hubspotEntry)])
        opFix [] =
      ([acmeConn], Option.some SyncError.decryption) :=
  decryption_failure_aborts_run
    (mkEnv [("a", acmeEntry), ("b", badTokenEntry), ("c", hubspotEntry)])
    opFix [] [acmeConn] { password := Option.some "K" }
    [acmeEntry] [hubspotEntry] badTokenEntry
    "bad" "https://acme.my.salesforce.com"
    (by decide) (by decide) (by decide) (by decide) (by decide) (by decide)
    (by decide) (by decide)

/-- C7 counterexample: when the registry refuses to commit the first entry's
record, the persistence error propagates: the run fails and the second,
otherwise valid entry is never upserted — contradicting the claim that only
that entry's upsert is aborted and the run continues. -/
theorem persistence_failure_halts_run :
    execute envNoCommit opFix [] = ([], Option.some SyncError.persistence) ∧
    (execute envNoCommit opFix []).2 ≠ Option.none ∧
    hubspotConn ∉ (execute envNoCommit opFix []).1 := by
  refine ⟨by decide, by decide, by decide⟩

/-- C7 (amended): a registry transaction failure for one entry rolls that
entry's upsert back and propagates: entries committed before it (`regPre`)
remain, none of the following entries (`post`) is processed, and the run
fails with the persistence error. -/
theorem persistence_failure_aborts_run (env : Env)
    (op : CreateConnectionsFromVariable) (reg regPre : List Connection)
    (sc : SecretConn) (pre post : List ConfigEntry) (e : ConfigEntry)
    (c : Connection)
    (hconn : env.get_connection op.fernet_key_conn_id = Option.some sc)
    (hvar : ((env.variableGet op.config_variable_key).getD []).map Prod.snd =
      pre ++ e :: post)
    (hpre : runEntries env sc.password pre reg = (regPre, Option.none))
    (hout : entryOutcome env sc.password e = EntryOutcome.upsert c)
    (hcommit : env.commitOk c = false) :
    execute env op reg = (regPre, Option.some SyncError.persistence) := by
  have hperr : processEntry env sc.password regPre e =
      Except.error SyncError.persistence := by
    simp [processEntry, hout, merge_connection, hcommit]
  rw [execute_conn_some reg hconn, hvar,
    runEntries_append pre (e :: post) reg (by rw [hpre]),
    hpre, runEntries_cons_err hperr]

/-- Witness for `persistence_failure_aborts_run` on the two-entry fixture. -/
theorem persistence_failure_aborts_run_witness :
    execute envNoCommit opFix [] = ([], Option.some SyncError.persistence) :=
  persistence_failure_aborts_run envNoCommit opFix [] []
    { password := Option.some "K" } [] [hubspotEntry] acmeEntry acmeConn
    (by decide) (by decide) (by decide) (by decide) (by decide)

/-- C8 counterexample: a Fernet-key connection that exists but has a null
password does not make the run fail with a key-resolution error — with an
empty configuration the run completes successfully. -/
theorem key_without_secret_value_no_error :
    execute envNoPassword opFix [] = ([], Option.none) ∧
    (execute envNoPassword opFix []).2 ≠ Option.some SyncError.keyResolution := by
  refine ⟨by decide, by decide⟩

/-- C8 (amended): the key connection is fetched once, up front: when it is
missing, `execute` fails with the key-resolution error, the registry is
untouched, and the configuration store is never consulted (the outcome is the
same under every variable store); when the connection exists with a null
password, resolution succeeds and decryption with the null key is what
fails. -/
theorem missing_key_entry_aborts_before_config (env : Env)
    (op : CreateConnectionsFromVariable) (reg : List Connection)
    (h : env.get_connection op.fernet_key_conn_id = Option.none) :
    execute env op reg = (reg, Option.some SyncError.keyResolution) ∧
    (∀ v, execute { env with variableGet := v } op reg =
      (reg, Option.some SyncError.keyResolution)) ∧
    (∀ s, decrypt_str env Option.none s = Option.none) :=
  ⟨execute_conn_none reg h, fun _ => execute_conn_none reg h, fun _ => rfl⟩

/-- Witness for `missing_key_entry_aborts_before_config` with an empty
connection store. -/
theorem missing_key_entry_aborts_before_config_witness :
    ({ mkEnv [] with get_connection := fun _ => Option.none
        : Env }).get_connection opFix.fernet_key_conn_id = Option.none ∧
    execute { mkEnv [] with get_connection := fun _ => Option.none } opFix [] =
      ([], Option.some SyncError.keyResolution) :=
  ⟨rfl,
    (missing_key_entry_aborts_before_config
      { mkEnv [] with get_connection := fun _ => Option.none } opFix [] rfl).1⟩

/-- C1: starting from a registry whose conn ids have no duplicates, a run and
a re-run on the identical input both leave the conn ids duplicate-free, and
after the re-run every entry that was accepted and upserted has exactly one
record with its conn id — the delete-before-insert upsert never produces a
second record for the same conn id. -/
theorem registry_never_has_duplicate_conn_ids (env : Env)
    (op : CreateConnectionsFromVariable) (reg : List Connection)
    (hnd : (reg.map Connection.conn_id).Nodup) :
    (((execute env op reg).1).map Connection.conn_id).Nodup ∧
    (((execute env op (execute env op reg).1).1).map Connection.conn_id).Nodup ∧
    (∀ sc, env.get_connection op.fernet_key_conn_id = Option.some sc →
      (execute env op (execute env op reg).1).2 = Option.none →
      ∀ e ∈ ((env.variableGet op.config_variable_key).getD []).map Prod.snd,
        ∀ c, entryOutcome env sc.password e = EntryOutcome.upsert c →
          (((execute env op (execute env op reg).1).1).map
            Connection.conn_id).count c.conn_id = 1) := by
  have h1 : (((execute env op reg).1).map Connection.conn_id).Nodup :=
    execute_nodup hnd
  have h2 : (((execute env op (execute env op reg).1).1).map
      Connection.conn_id).Nodup := execute_nodup h1
  refine ⟨h1, h2, ?_⟩
  intro sc hsc hdone e he c hout
  have hrw := execute_conn_some (execute env op reg).1 hsc
  rw [hrw] at hdone h2 ⊢
  exact List.count_eq_one_of_mem h2 (runEntries_upsert_mem hdone he hout)

/-- Witness for `registry_never_has_duplicate_conn_ids` on the one-entry
fixture, starting from the empty registry. -/
theorem registry_never_has_duplicate_conn_ids_witness :
    (([] : List Connection).map Connection.conn_id).Nodup ∧
    ((((execute (mkEnv [("acme", acmeEntry)]) opFix []).1).map
        Connection.conn_id).Nodup ∧
      (((execute (mkEnv [("acme", acmeEntry)]) opFix
          (execute (mkEnv [("acme", acmeEntry)]) opFix []).1).1).map
        Connection.conn_id).Nodup ∧
      (∀ sc, (mkEnv [("acme", acmeEntry)]).get_connection
          opFix.fernet_key_conn_id = Option.some sc →
        (execute (mkEnv [("acme", acmeEntry)]) opFix
          (execute (mkEnv [("acme", acmeEntry)]) opFix []).1).2 = Option.none →
        ∀ e ∈ (((mkEnv [("acme", acmeEntry)]).variableGet
            opFix.config_variable_key).getD []).map Prod.snd,
          ∀ c, entryOutcome (mkEnv [("acme", acmeEntry)]) sc.password e =
              EntryOutcome.upsert c →
            (((execute (mkEnv [("acme", acmeEntry)]) opFix
                (execute (mkEnv [("acme", acmeEntry)]) opFix []).1).1).map
              Connection.conn_id).count c.conn_id = 1)) :=
  ⟨by simp,
    registry_never_has_duplicate_conn_ids (mkEnv [("acme", acmeEntry)])
      opFix [] (by simp)⟩

end VariableConnection
